import Mathlib

/-!
Verification of the SDMX structure-metadata parser (`sdmx_metadata.py`).

The source builds an `SDMXMetadata` model from a parsed XML tree:
namespace-stripped tags, a primary-measure concept reference, the key-family
concept references with their optional codelist keys, a concept-code↔name
index, and per-concept (coded value → description) maps.  We embed the XML
tree, the Python-dict semantics (last insertion wins on key collision), the
Python error behaviours (`KeyError` for a missing dict key, `AttributeError`
for attribute access on `None`), and each method of the class, then prove or
refute the specified properties.
-/

set_option autoImplicit false

namespace SDMX

/-- An XML element as exposed by `xml.etree.cElementTree`: a tag, an
attribute map, optional text, and a list of child elements.  Python element
truthiness is `children ≠ []`. -/
inductive Element where
  | mk (tag : String) (attrib : List (String × String)) (text : Option String)
       (children : List Element)
deriving Repr

def Element.tag : Element → String
  | .mk t _ _ _ => t

def Element.attrib : Element → List (String × String)
  | .mk _ a _ _ => a

def Element.text : Element → Option String
  | .mk _ _ x _ => x

def Element.children : Element → List Element
  | .mk _ _ _ c => c

/-- Python-dict lookup on an association list built by repeated
`d[k] = v` assignments appended in order: the LAST binding of a key wins. -/
def dlookup {α β : Type} [DecidableEq α] : List (α × β) → α → Option β
  | [], _ => none
  | p :: l, k =>
    match dlookup l k with
    | some v => some v
    | none => if p.1 = k then some p.2 else none

/-- The Python exceptions the source can raise: `KeyError` from a missing
dict key, `AttributeError` from attribute access on `None` (e.g.
`find(...)` returning no element, or `.strip()` on `None`). -/
inductive PyError where
  | keyError
  | attributeError
deriving Repr, DecidableEq

/-- All proper descendants of an element in document (preorder) order,
as traversed by an ElementTree `.//` path. -/
def Element.descendants : Element → List Element
  | .mk _ _ _ cs => descList cs
where
  descList : List Element → List Element
    | [] => []
    | c :: cs => c :: c.descendants ++ descList cs

/-- Embeds `element.find('.//X')`-style search: first matching proper descendant
in document order. -/
def findDesc (e : Element) (p : Element → Bool) : Option Element :=
  e.descendants.find? p

/-- Embeds `element.find('Tag')`: first direct child with the given tag. -/
def findChild (e : Element) (t : String) : Option Element :=
  e.children.find? (fun c => c.tag = t)

/-- Embeds `tag_name.split('\x7d', 1)[1]` viewed on characters: drop everything up to
and including the first `'\x7d'`; `none` when no `'\x7d'` occurs. -/
def dropThroughBrace : List Char → Option (List Char)
  | [] => none
  | c :: cs => if c = '}' then some cs else dropThroughBrace cs

/-- Embeds `SDMXMetadata.__remove_xml_namespace`: if `'\x7d' in tag_name`, replace
the tag by everything after the first `'\x7d'`; otherwise leave it alone. -/
def remove_xml_namespace (tag_name : String) : String :=
  match dropThroughBrace tag_name.toList with
  | some rest => String.mk rest
  | none => tag_name

/-- Embeds `SDMXMetadata.__load_xml`: the tree comes back with every element's tag
namespace-stripped (the parse itself is abstracted: we start from the parsed
tree and apply the strip to every element). -/
def load_xml : Element → Element
  | .mk t a x cs => .mk (remove_xml_namespace t) a x (stripList cs)
where
  stripList : List Element → List Element
    | [] => []
    | c :: cs => load_xml c :: stripList cs

/-- Embeds `SDMXMetadata.__load_primary_measure`:
`root.find('.//PrimaryMeasure').attrib['conceptRef']`.  A missing element
gives `AttributeError` (attribute access on `None`); a missing attribute
gives `KeyError`. -/
def load_primary_measure (root : Element) : Except PyError String :=
  match findDesc root (fun e => e.tag = "PrimaryMeasure") with
  | none => .error .attributeError
  | some e =>
    match dlookup e.attrib "conceptRef" with
    | none => .error .keyError
    | some code => .ok code

/-- Embeds `root.findall('.//KeyFamily//*[@conceptRef]')`: for each `KeyFamily`
descendant, its proper descendants carrying a `conceptRef` attribute, in
document order. -/
def keyFamilyConceptRefs (root : Element) : List Element :=
  (root.descendants.filter (fun e => e.tag = "KeyFamily")).flatMap
    (fun kf => kf.descendants.filter (fun e => (dlookup e.attrib "conceptRef").isSome))

/-- First pass of `__load_concepts`: each key-family concept reference's
`conceptRef` code paired with its optional `codelist` attribute. -/
def conceptRefEntries (root : Element) : List (String × Option String) :=
  (keyFamilyConceptRefs root).filterMap
    (fun e => (dlookup e.attrib "conceptRef").map
      (fun code => (code, dlookup e.attrib "codelist")))

/-- Embeds `root.find('.//Concept[@id="code"]').find('Name').text` from the second
pass of `__load_concepts`: `AttributeError` when the `Concept` definition or
its `Name` child is missing. -/
def conceptName (root : Element) (code : String) : Except PyError (Option String) :=
  match findDesc root (fun e => e.tag = "Concept" ∧ dlookup e.attrib "id" = some code) with
  | none => .error .attributeError
  | some el =>
    match findChild el "Name" with
    | none => .error .attributeError
    | some nameEl => .ok nameEl.text

/-- Second pass of `__load_concepts`: for every discovered code in order,
insert `(code, name)` into `__concept_code_to_name` and `(name, code)` into
`__name_to_concept_code`. -/
def load_names (root : Element) :
    List String → Except PyError (List (String × Option String) × List (Option String × String))
  | [] => .ok ([], [])
  | c :: cs => do
    let n ← conceptName root c
    let (m1, m2) ← load_names root cs
    .ok ((c, n) :: m1, (n, c) :: m2)

/-- Embeds `root.find('.//CodeList[@id="key"]')`. -/
def findCodeList (root : Element) (key : String) : Option Element :=
  findDesc root (fun e => e.tag = "CodeList" ∧ dlookup e.attrib "id" = some key)

/-- Inner loop of `__load_code_levels`: for each direct `Code` child, read
`level.attrib['value']` (`KeyError` when missing) and
`level.find('Description').text` (`AttributeError` when the child is
missing), accumulating the dict entries in document order. -/
def codeEntries : List Element → Except PyError (List (String × Option String))
  | [] => .ok []
  | l :: ls =>
    match dlookup l.attrib "value" with
    | none => .error .keyError
    | some v =>
      match findChild l "Description" with
      | none => .error .attributeError
      | some d => do
        let rest ← codeEntries ls
        .ok ((v, d.text) :: rest)

/-- Embeds `SDMXMetadata.__load_code_levels`: for each recorded codelist key, find
its `CodeList`; the Python truthiness test `if code_list:` skips both a
missing element and an element with no children; otherwise store the
codelist's entries under the owning concept code (a later key mapping to the
same concept overwrites, as a later dict assignment would). -/
def load_code_levels (root : Element) (k2c : List (String × String)) :
    List String → Except PyError (List (String × List (String × Option String)))
  | [] => .ok []
  | key :: keys =>
    match findCodeList root key with
    | none => load_code_levels root k2c keys
    | some cl =>
      if cl.children.isEmpty then load_code_levels root k2c keys
      else
        match dlookup k2c key with
        | none => .error .keyError
        | some concept_code => do
          let entries ← codeEntries (cl.children.filter (fun c => c.tag = "Code"))
          let rest ← load_code_levels root k2c keys
          .ok ((concept_code, entries) :: rest)

/-- The derived lookup structures of an `SDMXMetadata` instance.  Dicts are
association lists in insertion order, read with `dlookup` (last wins). -/
structure Model where
  primary_measure_code : String
  concept_codes : List String
  concept_codelist_keys : List String
  concept_code_to_codelist_key : List (String × String)
  codelist_key_to_concept_code : List (String × String)
  concept_code_to_name : List (String × Option String)
  name_to_concept_code : List (Option String × String)
  code_levels : List (String × List (String × Option String))
deriving Repr

/-- The `__concept_codes` list: every key-family concept reference's code,
in document order, duplicates included. -/
def concept_codes_of (root : Element) : List String :=
  (conceptRefEntries root).map (·.1)

/-- The `__concept_codelist_keys` list: the codelist keys of the concept
references that carry one, in document order. -/
def concept_codelist_keys_of (root : Element) : List String :=
  (conceptRefEntries root).filterMap (·.2)

/-- The `__concept_code_to_codelist_key` dict as its insertion sequence. -/
def concept_code_to_codelist_key_of (root : Element) : List (String × String) :=
  (conceptRefEntries root).filterMap (fun p => p.2.map (fun k => (p.1, k)))

/-- The `__codelist_key_to_concept_code` dict as its insertion sequence. -/
def codelist_key_to_concept_code_of (root : Element) : List (String × String) :=
  (conceptRefEntries root).filterMap (fun p => p.2.map (fun k => (k, p.1)))

/-- Embeds `SDMXMetadata.__init__` after `__load_xml`: the three construction
passes over the (already namespace-stripped) tree. -/
def SDMXMetadata_init (root : Element) : Except PyError Model := do
  let pm ← load_primary_measure root
  let (c2n, n2c) ← load_names root (concept_codes_of root)
  let levels ← load_code_levels root (codelist_key_to_concept_code_of root)
    (concept_codelist_keys_of root)
  .ok ⟨pm, concept_codes_of root, concept_codelist_keys_of root,
    concept_code_to_codelist_key_of root, codelist_key_to_concept_code_of root,
    c2n, n2c, levels⟩

/-- Embeds `SDMXMetadata.__init__` from the raw parsed tree: strip namespaces,
then run the construction passes. -/
def sdmx_load (root : Element) : Except PyError Model :=
  SDMXMetadata_init (load_xml root)

/-- Embeds `SDMXMetadata.is_primary_measure_code`. -/
def is_primary_measure_code (m : Model) (code : String) : Bool :=
  code = m.primary_measure_code

/-- Embeds `SDMXMetadata.name_by_code`: a dict lookup, `KeyError` when absent. -/
def name_by_code (m : Model) (code : String) : Except PyError (Option String) :=
  match dlookup m.concept_code_to_name code with
  | none => .error .keyError
  | some n => .ok n

/-- Embeds `SDMXMetadata.code_by_name`: a dict lookup, `KeyError` when absent. -/
def code_by_name (m : Model) (name : Option String) : Except PyError String :=
  match dlookup m.name_to_concept_code name with
  | none => .error .keyError
  | some c => .ok c

/-- Embeds `SDMXMetadata.code_levels_by_code`: `None` for the primary measure,
otherwise `self.__code_levels[code]` — a dict lookup that raises `KeyError`
when the concept has no stored codelist. -/
def code_levels_by_code (m : Model) (code : String) :
    Except PyError (Option (List (String × Option String))) :=
  if is_primary_measure_code m code then .ok none
  else
    match dlookup m.code_levels code with
    | none => .error .keyError
    | some levels => .ok (some levels)

/-- Embeds Python `str.strip()`. -/
def pyStrip (s : String) : String := s.trim

/-- Embeds `SDMXMetadata.description_by_code_level`: empty coded value passes
through, the primary measure passes through, otherwise two dict lookups
(`KeyError` when either misses); `trim` strips the resolved description
(`AttributeError` when that description is `None`). -/
def description_by_code_level (m : Model) (code : String) (code_level : String)
    (trim : Bool) : Except PyError (Option String) :=
  if code_level = "" then .ok (some code_level)
  else if is_primary_measure_code m code then .ok (some code_level)
  else
    match dlookup m.code_levels code with
    | none => .error .keyError
    | some levels =>
      match dlookup levels code_level with
      | none => .error .keyError
      | some desc =>
        if trim then
          match desc with
          | none => .error .attributeError
          | some s => .ok (some (pyStrip s))
        else .ok desc

/-! Lemmas about the Python-dict lookup. -/

theorem dlookup_eq_some_mem {α β : Type} [DecidableEq α] {l : List (α × β)} {k : α} {v : β}
    (h : dlookup l k = some v) : (k, v) ∈ l := by
  induction l with
  | nil => simp [dlookup] at h
  | cons p t ih =>
    simp only [dlookup] at h
    cases hd : dlookup t k with
    | some w =>
      rw [hd] at h
      injection h with h
      subst h
      exact List.mem_cons_of_mem _ (ih hd)
    | none =>
      rw [hd] at h
      by_cases hk : p.1 = k
      · simp only [hk, if_pos rfl] at h
        injection h with h
        have : p = (k, v) := Prod.ext hk h
        exact this ▸ List.mem_cons_self p t
      · simp [hk] at h

theorem isSome_dlookup_of_mem {α β : Type} [DecidableEq α] {l : List (α × β)} {k : α} {v : β}
    (h : (k, v) ∈ l) : (dlookup l k).isSome := by
  induction l with
  | nil => simp at h
  | cons p t ih =>
    simp only [dlookup]
    cases hd : dlookup t k with
    | some w => simp
    | none =>
      rcases List.mem_cons.mp h with h1 | h1
      · have hk : p.1 = k := by rw [← h1]
        simp [hk]
      · have := ih h1
        rw [hd] at this
        simp at this

theorem dlookup_eq_none_of_forall_not_mem {α β : Type} [DecidableEq α] {l : List (α × β)} {k : α}
    (h : ∀ v, (k, v) ∉ l) : dlookup l k = none := by
  cases hd : dlookup l k with
  | none => rfl
  | some v => exact absurd (dlookup_eq_some_mem hd) (h v)

theorem dlookup_eq_none_of_not_mem_keys {α β : Type} [DecidableEq α] {l : List (α × β)} {k : α}
    (h : k ∉ l.map Prod.fst) : dlookup l k = none :=
  dlookup_eq_none_of_forall_not_mem (fun v hv => h (List.mem_map.mpr ⟨(k, v), hv, rfl⟩))

theorem dlookup_eq_some_of_nodup_mem {α β : Type} [DecidableEq α] {l : List (α × β)} {k : α}
    {v : β} (hn : (l.map Prod.fst).Nodup) (h : (k, v) ∈ l) : dlookup l k = some v := by
  induction l with
  | nil => simp at h
  | cons p t ih =>
    simp only [List.map_cons, List.nodup_cons] at hn
    obtain ⟨hp, ht⟩ := hn
    simp only [dlookup]
    rcases List.mem_cons.mp h with h1 | h1
    · have hkeys : dlookup t k = none := by
        apply dlookup_eq_none_of_not_mem_keys
        simpa [← h1] using hp
      rw [hkeys, ← h1]
      simp
    · rw [ih ht h1]

/-! Characterizations of the construction passes. -/

/-- A successful `__init__` determines every field of the model from the
three passes. -/
theorem init_ok_inv {root : Element} {m : Model} (h : SDMXMetadata_init root = .ok m) :
    load_primary_measure root = .ok m.primary_measure_code ∧
    m.concept_codes = concept_codes_of root ∧
    m.concept_codelist_keys = concept_codelist_keys_of root ∧
    m.concept_code_to_codelist_key = concept_code_to_codelist_key_of root ∧
    m.codelist_key_to_concept_code = codelist_key_to_concept_code_of root ∧
    load_names root (concept_codes_of root) =
      .ok (m.concept_code_to_name, m.name_to_concept_code) ∧
    load_code_levels root (codelist_key_to_concept_code_of root)
      (concept_codelist_keys_of root) = .ok m.code_levels := by
  unfold SDMXMetadata_init at h
  cases hpm : load_primary_measure root with
  | error e => rw [hpm] at h; simp only [bind, Except.bind] at h; cases h
  | ok pm =>
    rw [hpm] at h
    cases hn : load_names root (concept_codes_of root) with
    | error e =>
      rw [hn] at h
      simp only [bind, Except.bind] at h
      cases h
    | ok pr =>
      obtain ⟨c2n, n2c⟩ := pr
      rw [hn] at h
      cases hl : load_code_levels root (codelist_key_to_concept_code_of root)
          (concept_codelist_keys_of root) with
      | error e =>
        rw [hl] at h
        simp only [bind, Except.bind] at h
        cases h
      | ok levels =>
        rw [hl] at h
        simp only [bind, Except.bind] at h
        injection h with h
        subst h
        exact ⟨rfl, rfl, rfl, rfl, rfl, rfl, rfl⟩

/-- A successful second pass of `__load_concepts` yields the name map keyed
exactly by the discovered codes in order, each name produced by
`conceptName`, with the reverse map its mirror image. -/
theorem load_names_ok {root : Element} {cs : List String}
    {m1 : List (String × Option String)} {m2 : List (Option String × String)}
    (h : load_names root cs = .ok (m1, m2)) :
    m1.map Prod.fst = cs ∧ (∀ p ∈ m1, conceptName root p.1 = .ok p.2) ∧
    m2 = m1.map (fun p => (p.2, p.1)) := by
  induction cs generalizing m1 m2 with
  | nil =>
    simp only [load_names] at h
    injection h with h
    injection h with h1 h2
    subst h1; subst h2
    simp
  | cons c cs ih =>
    simp only [load_names] at h
    cases hn : conceptName root c with
    | error e => rw [hn] at h; simp only [bind, Except.bind] at h; cases h
    | ok n =>
      rw [hn] at h
      cases hr : load_names root cs with
      | error e => rw [hr] at h; simp only [bind, Except.bind] at h; cases h
      | ok pr =>
        obtain ⟨t1, t2⟩ := pr
        rw [hr] at h
        simp only [bind, Except.bind] at h
        injection h with h
        injection h with h1 h2
        subst h1; subst h2
        obtain ⟨ihk, ihn, ihm⟩ := ih hr
        refine ⟨by simp [ihk], ?_, by simp [ihm]⟩
        intro p hp
        rcases List.mem_cons.mp hp with h1 | h1
        · subst h1; exact hn
        · exact ihn p h1

/-- A concept no recorded codelist key resolves to gets no entry in
`__code_levels`. -/
theorem load_code_levels_ok_not_target {root : Element} {k2c : List (String × String)}
    {keys : List String} {L : List (String × List (String × Option String))} {c : String}
    (h : load_code_levels root k2c keys = .ok L)
    (hc : ∀ k ∈ keys, dlookup k2c k ≠ some c) : dlookup L c = none := by
  induction keys generalizing L with
  | nil =>
    simp only [load_code_levels] at h
    injection h with h
    subst h
    rfl
  | cons key ks ih =>
    simp only [load_code_levels] at h
    cases hf : findCodeList root key with
    | none =>
      rw [hf] at h
      exact ih h (fun k hk => hc k (List.mem_cons_of_mem _ hk))
    | some cl =>
      rw [hf] at h
      simp only at h
      by_cases he : cl.children.isEmpty
      · rw [if_pos he] at h
        exact ih h (fun k hk => hc k (List.mem_cons_of_mem _ hk))
      · rw [if_neg he] at h
        cases hk : dlookup k2c key with
        | none => rw [hk] at h; cases h
        | some cc =>
          rw [hk] at h
          cases hce : codeEntries (cl.children.filter (fun x => x.tag = "Code")) with
          | error e => rw [hce] at h; simp only [bind, Except.bind] at h; cases h
          | ok entries =>
            rw [hce] at h
            cases hrest : load_code_levels root k2c ks with
            | error e => rw [hrest] at h; simp only [bind, Except.bind] at h; cases h
            | ok rest =>
              rw [hrest] at h
              simp only [bind, Except.bind] at h
              injection h with h
              subst h
              have htail : dlookup rest c = none :=
                ih hrest (fun k hk => hc k (List.mem_cons_of_mem _ hk))
              have hcc : ¬ cc = c := by
                intro hccc
                exact hc key (List.mem_cons_self _ _) (hccc ▸ hk)
              simp only [dlookup, htail]
              simp [hcc]

/-- When exactly one recorded codelist key resolves to concept `c`, and that
key's `CodeList` is present and truthy, `__code_levels` maps `c` to that
codelist's entries. -/
theorem load_code_levels_ok_target {root : Element} {k2c : List (String × String)}
    {keys : List String} {L : List (String × List (String × Option String))} {c K : String}
    {cl : Element} {entries : List (String × Option String)}
    (h : load_code_levels root k2c keys = .ok L) (hK : K ∈ keys)
    (huniq : ∀ k ∈ keys, dlookup k2c k = some c → k = K)
    (hk2c : dlookup k2c K = some c)
    (hcl : findCodeList root K = some cl)
    (hne : ¬ cl.children.isEmpty)
    (hent : codeEntries (cl.children.filter (fun x => x.tag = "Code")) = .ok entries) :
    dlookup L c = some entries := by
  induction keys generalizing L with
  | nil => simp at hK
  | cons key ks ih =>
    simp only [load_code_levels] at h
    by_cases hkK : key = K
    · subst hkK
      rw [hcl] at h
      simp only at h
      rw [if_neg hne, hk2c, hent] at h
      cases hrest : load_code_levels root k2c ks with
      | error e => rw [hrest] at h; simp only [bind, Except.bind] at h; cases h
      | ok rest =>
        rw [hrest] at h
        simp only [bind, Except.bind] at h
        injection h with h
        subst h
        by_cases hKs : key ∈ ks
        · have := ih hrest hKs (fun k hk hc' => huniq k (List.mem_cons_of_mem _ hk) hc')
          simp only [dlookup, this]
        · have hnone : dlookup rest c = none := by
            apply load_code_levels_ok_not_target hrest
            intro k hk hc'
            exact hKs (huniq k (List.mem_cons_of_mem _ hk) hc' ▸ hk)
          simp only [dlookup, hnone]
          simp
    · have hKs : K ∈ ks := by
        rcases List.mem_cons.mp hK with h1 | h1
        · exact absurd h1.symm hkK
        · exact h1
      have ihapp : ∀ {L'}, load_code_levels root k2c ks = .ok L' → dlookup L' c = some entries :=
        fun hL' => ih hL' hKs (fun k hk hc' => huniq k (List.mem_cons_of_mem _ hk) hc')
      cases hf : findCodeList root key with
      | none =>
        rw [hf] at h
        exact ihapp h
      | some cl' =>
        rw [hf] at h
        simp only at h
        by_cases he : cl'.children.isEmpty
        · rw [if_pos he] at h
          exact ihapp h
        · rw [if_neg he] at h
          cases hk : dlookup k2c key with
          | none => rw [hk] at h; cases h
          | some cc =>
            rw [hk] at h
            cases hce : codeEntries (cl'.children.filter (fun x => x.tag = "Code")) with
            | error e => rw [hce] at h; simp only [bind, Except.bind] at h; cases h
            | ok entries' =>
              rw [hce] at h
              cases hrest : load_code_levels root k2c ks with
              | error e => rw [hrest] at h; simp only [bind, Except.bind] at h; cases h
              | ok rest =>
                rw [hrest] at h
                simp only [bind, Except.bind] at h
                injection h with h
                subst h
                have htail := ihapp hrest
                simp only [dlookup, htail]

/-! Concrete structure documents (already namespace-stripped) and the models
the construction builds from them, used to instantiate the theorems. -/

/-- A small well-formed document: concepts `SEX` (codelist `CL_SEX`) and
`GEO` (no codelist), primary measure `OBS_VALUE`. -/
def docSEX : Element :=
  .mk "Structure" [] none
    [ .mk "PrimaryMeasure" [("conceptRef", "OBS_VALUE")] none []
    , .mk "KeyFamily" [("id", "CENSUS")] none
        [ .mk "Dimension" [("conceptRef", "SEX"), ("codelist", "CL_SEX")] none []
        , .mk "Dimension" [("conceptRef", "GEO")] none [] ]
    , .mk "Concept" [("id", "SEX")] none [.mk "Name" [] (some "Sex") []]
    , .mk "Concept" [("id", "GEO")] none [.mk "Name" [] (some "Geography") []]
    , .mk "CodeList" [("id", "CL_SEX")] none
        [ .mk "Name" [] (some "Sex codes") []
        , .mk "Code" [("value", "1")] none [.mk "Description" [] (some "Total") []]
        , .mk "Code" [("value", "2")] none [.mk "Description" [] (some "Male") []]
        , .mk "Code" [("value", "3")] none [.mk "Description" [] (some "  Female ") []] ] ]

/-- The model `__init__` builds from `docSEX`. -/
def mSEX : Model :=
  { primary_measure_code := "OBS_VALUE"
    concept_codes := ["SEX", "GEO"]
    concept_codelist_keys := ["CL_SEX"]
    concept_code_to_codelist_key := [("SEX", "CL_SEX")]
    codelist_key_to_concept_code := [("CL_SEX", "SEX")]
    concept_code_to_name := [("SEX", some "Sex"), ("GEO", some "Geography")]
    name_to_concept_code := [(some "Sex", "SEX"), (some "Geography", "GEO")]
    code_levels := [("SEX", [("1", some "Total"), ("2", some "Male"), ("3", some "  Female ")])] }

/-- A document in which two key-family concept references (`A` and `B`)
share the codelist key `CL`. -/
def docC1 : Element :=
  .mk "Structure" [] none
    [ .mk "PrimaryMeasure" [("conceptRef", "OBS_VALUE")] none []
    , .mk "KeyFamily" [] none
        [ .mk "Dimension" [("conceptRef", "A"), ("codelist", "CL")] none []
        , .mk "Dimension" [("conceptRef", "B"), ("codelist", "CL")] none [] ]
    , .mk "Concept" [("id", "A")] none [.mk "Name" [] (some "Alpha") []]
    , .mk "Concept" [("id", "B")] none [.mk "Name" [] (some "Beta") []]
    , .mk "CodeList" [("id", "CL")] none
        [ .mk "Code" [("value", "1")] none [.mk "Description" [] (some "One") []] ] ]

/-- The model `__init__` builds from `docC1`: the reverse key→concept map
keeps only the later concept `B`, so `A` has no stored code levels. -/
def mC1 : Model :=
  { primary_measure_code := "OBS_VALUE"
    concept_codes := ["A", "B"]
    concept_codelist_keys := ["CL", "CL"]
    concept_code_to_codelist_key := [("A", "CL"), ("B", "CL")]
    codelist_key_to_concept_code := [("CL", "A"), ("CL", "B")]
    concept_code_to_name := [("A", some "Alpha"), ("B", some "Beta")]
    name_to_concept_code := [(some "Alpha", "A"), (some "Beta", "B")]
    code_levels := [("B", [("1", some "One")]), ("B", [("1", some "One")])] }

/-- A document whose key family carries the concept code `A` twice. -/
def docDup : Element :=
  .mk "Structure" [] none
    [ .mk "PrimaryMeasure" [("conceptRef", "OBS_VALUE")] none []
    , .mk "KeyFamily" [] none
        [ .mk "Dimension" [("conceptRef", "A")] none []
        , .mk "Dimension" [("conceptRef", "A")] none [] ]
    , .mk "Concept" [("id", "A")] none [.mk "Name" [] (some "Alpha") []] ]

/-- The model `__init__` builds from `docDup`: no rejection, the duplicate
code is simply recorded twice. -/
def mDup : Model :=
  { primary_measure_code := "OBS_VALUE"
    concept_codes := ["A", "A"]
    concept_codelist_keys := []
    concept_code_to_codelist_key := []
    codelist_key_to_concept_code := []
    concept_code_to_name := [("A", some "Alpha"), ("A", some "Alpha")]
    name_to_concept_code := [(some "Alpha", "A"), (some "Alpha", "A")]
    code_levels := [] }

/-- A document where concept `A`'s `CodeList` exists but has only a `Name`
child (zero `Code` children), and concept `M`'s codelist key matches no
`CodeList` at all. -/
def docC6 : Element :=
  .mk "Structure" [] none
    [ .mk "PrimaryMeasure" [("conceptRef", "OBS_VALUE")] none []
    , .mk "KeyFamily" [] none
        [ .mk "Dimension" [("conceptRef", "A"), ("codelist", "CL_A")] none []
        , .mk "Dimension" [("conceptRef", "M"), ("codelist", "CL_MISS")] none [] ]
    , .mk "Concept" [("id", "A")] none [.mk "Name" [] (some "Alpha") []]
    , .mk "Concept" [("id", "M")] none [.mk "Name" [] (some "Mu") []]
    , .mk "CodeList" [("id", "CL_A")] none [.mk "Name" [] (some "Alpha codes") []] ]

/-- The model `__init__` builds from `docC6`: `A` gets a stored EMPTY
enumeration (its `CodeList` element is truthy), `M` gets none. -/
def mC6 : Model :=
  { primary_measure_code := "OBS_VALUE"
    concept_codes := ["A", "M"]
    concept_codelist_keys := ["CL_A", "CL_MISS"]
    concept_code_to_codelist_key := [("A", "CL_A"), ("M", "CL_MISS")]
    codelist_key_to_concept_code := [("CL_A", "A"), ("CL_MISS", "M")]
    concept_code_to_name := [("A", some "Alpha"), ("M", some "Mu")]
    name_to_concept_code := [(some "Alpha", "A"), (some "Mu", "M")]
    code_levels := [("A", [])] }

/-! Helper lemmas for the namespace-stripping loader. -/

theorem stripList_eq_map (cs : List Element) : load_xml.stripList cs = cs.map load_xml := by
  induction cs with
  | nil => rfl
  | cons c cs ih => simp [load_xml.stripList, ih]

theorem dropThroughBrace_append {a : List Char} (b : List Char) (h : '}' ∉ a) :
    dropThroughBrace (a ++ '}' :: b) = some b := by
  induction a with
  | nil => simp [dropThroughBrace]
  | cons c a ih =>
    simp only [List.mem_cons, not_or] at h
    rw [List.cons_append]
    simp only [dropThroughBrace]
    rw [if_neg (fun hc => h.1 hc.symm)]
    exact ih h.2

theorem dropThroughBrace_eq_none {l : List Char} (h : '}' ∉ l) : dropThroughBrace l = none := by
  induction l with
  | nil => rfl
  | cons c cs ih =>
    simp only [List.mem_cons, not_or] at h
    simp only [dropThroughBrace]
    rw [if_neg (fun hc => h.1 hc.symm)]
    exact ih h.2

/-! The claims. -/

/-- C4: for every concept code, `description_by_code_level(code, "")`
returns `""` (the empty coded value is passed through unchanged, not an
error), and for every value `v`,
`description_by_code_level(primaryMeasureCode, v)` returns `v` unchanged
(identity passthrough for the primary measure concept); both hold for
either value of `trim`. -/
theorem C4_empty_and_primary_passthrough :
    (∀ (m : Model) (code : String) (trim : Bool),
      description_by_code_level m code "" trim = .ok (some "")) ∧
    (∀ (m : Model) (v : String) (trim : Bool),
      description_by_code_level m m.primary_measure_code v trim = .ok (some v)) := by
  refine ⟨fun m code trim => ?_, fun m v trim => ?_⟩
  · simp [description_by_code_level]
  · by_cases hv : v = ""
    · subst hv; simp [description_by_code_level]
    · simp [description_by_code_level, hv, is_primary_measure_code]

/-- C10: `description_by_code_level(code, "")` returns `""` for any code
whatsoever — also one that is neither a discovered concept nor the primary
measure — because the empty-value check precedes both the primary-measure
check and the codelist lookup; no error can be raised. -/
theorem C10_empty_value_never_errors :
    ∀ (m : Model) (code : String) (trim : Bool),
      description_by_code_level m code "" trim = .ok (some "") := by
  intro m code trim
  simp [description_by_code_level]

/-- C9: for every non-empty coded value `v`,
`description_by_code_level(primaryMeasureCode, v, trim := true)` returns `v`
exactly, without stripping whitespace: the trim flag only acts on the
codelist-lookup branch, and the primary-measure branch returns first. -/
theorem C9_primary_measure_no_trim (m : Model) (v : String) (hv : v ≠ "") :
    description_by_code_level m m.primary_measure_code v true = .ok (some v) := by
  simp [description_by_code_level, hv, is_primary_measure_code]

/-- Witness for C9 at a value carrying whitespace on both sides. -/
theorem C9_witness_eval :
    (" 42.7 " : String) ≠ "" ∧
    description_by_code_level mSEX mSEX.primary_measure_code " 42.7 " true =
      .ok (some " 42.7 ") :=
  ⟨by decide, C9_primary_measure_no_trim mSEX " 42.7 " (by decide)⟩

/-- C7 (amended): when the structure document has no `PrimaryMeasure`
element, construction fails — but with the generic attribute-access-on-None
error (`AttributeError` in the source, from `root.find(...).attrib`), not a
dedicated schema error (no such error class exists in the source) — and no
usable model results. -/
theorem C7_missing_primary_measure_fails (root : Element)
    (h : findDesc root (fun e => e.tag = "PrimaryMeasure") = none) :
    SDMXMetadata_init root = .error .attributeError := by
  have hpm : load_primary_measure root = .error .attributeError := by
    unfold load_primary_measure
    rw [h]
  unfold SDMXMetadata_init
  rw [hpm]
  rfl

/-- Counterexample for C7 as stated: on a document with no `PrimaryMeasure`
element the construction's error is the attribute-access error, the only
failure the source can produce here — there is no schema-error kind. -/
theorem C7_attribute_error_counterexample :
    SDMXMetadata_init (Element.mk "Structure" [] none []) = .error .attributeError := rfl

/-- Witness for C7's amended theorem at a concrete document. -/
theorem C7_witness_eval :
    findDesc (Element.mk "NoPM" [] none []) (fun e => e.tag = "PrimaryMeasure") = none ∧
    SDMXMetadata_init (Element.mk "NoPM" [] none []) = .error .attributeError :=
  ⟨rfl, C7_missing_primary_measure_fails _ rfl⟩

/-- C8: the loader returns the tree with every element's tag
namespace-stripped: structurally, the stripped tree's tag is the stripped
tag and its children are the stripped children; and the strip removes
everything up to and including the first closing brace, leaving a tag with
no closing brace unchanged. -/
theorem C8_namespace_stripping :
    (∀ e : Element, (load_xml e).tag = remove_xml_namespace e.tag ∧
      (load_xml e).children = e.children.map load_xml) ∧
    (∀ (a b : List Char), '}' ∉ a →
      remove_xml_namespace (String.mk (a ++ '}' :: b)) = String.mk b) ∧
    (∀ t : String, '}' ∉ t.toList → remove_xml_namespace t = t) := by
  refine ⟨fun e => ?_, fun a b h => ?_, fun t h => ?_⟩
  · cases e with
    | mk t a x cs => exact ⟨rfl, stripList_eq_map cs⟩
  · unfold remove_xml_namespace
    have hl : (String.mk (a ++ '}' :: b)).toList = a ++ '}' :: b := rfl
    rw [hl, dropThroughBrace_append b h]
  · unfold remove_xml_namespace
    rw [dropThroughBrace_eq_none h]

/-- Witness for C8: a namespaced tag loses its prefix, a bare tag is kept. -/
theorem C8_witness_eval :
    remove_xml_namespace (String.mk (['n', 's'] ++ '}' :: ['C'])) = String.mk ['C'] ∧
    remove_xml_namespace "Concept" = "Concept" :=
  ⟨C8_namespace_stripping.2.1 ['n', 's'] ['C'] (by decide),
   C8_namespace_stripping.2.2 "Concept" (by decide)⟩

/-- C2 (amended): `code_levels_by_code` returns absent (`None`) only for
the primary measure; for a discovered concept with no codelist it raises
the dict-lookup `KeyError` — absence of a codelist is NOT reported as
absent. -/
theorem C2_code_levels_by_code_behaviour {root : Element} {m : Model} {code : String}
    (h : SDMXMetadata_init root = .ok m) (hmem : code ∈ m.concept_codes)
    (hnokey : dlookup m.concept_code_to_codelist_key code = none)
    (hnpm : code ≠ m.primary_measure_code) :
    code_levels_by_code m code = .error .keyError ∧
    code_levels_by_code m m.primary_measure_code = .ok none := by
  obtain ⟨hpm, hcodes, hkeys, hc2k, hk2c, hnames, hlevels⟩ := init_ok_inv h
  rw [hc2k] at hnokey
  constructor
  · have hnot : ∀ k ∈ concept_codelist_keys_of root,
        dlookup (codelist_key_to_concept_code_of root) k ≠ some code := by
      intro k hk hsome
      have hmemk : (k, code) ∈ codelist_key_to_concept_code_of root :=
        dlookup_eq_some_mem hsome
      unfold codelist_key_to_concept_code_of at hmemk
      obtain ⟨p, hp, hpe⟩ := List.mem_filterMap.mp hmemk
      cases hp2 : p.2 with
      | none => rw [hp2] at hpe; exact Option.noConfusion hpe
      | some k' =>
        rw [hp2] at hpe
        have hpe' : some ((k', p.1) : String × String) = some (k, code) := hpe
        injection hpe' with h1
        injection h1 with hk' hp1
        have hmem2 : (p.1, k') ∈ concept_code_to_codelist_key_of root :=
          List.mem_filterMap.mpr ⟨p, hp, by rw [hp2]; rfl⟩
        have hsome2 := isSome_dlookup_of_mem (hp1 ▸ hmem2)
        rw [hnokey] at hsome2
        simp at hsome2
    have hnone : dlookup m.code_levels code = none :=
      load_code_levels_ok_not_target hlevels hnot
    simp [code_levels_by_code, is_primary_measure_code, hnpm, hnone]
  · simp [code_levels_by_code, is_primary_measure_code]

/-- Counterexample for C2 as stated: in `docSEX`, `GEO` is a discovered
concept with no codelist, is not the primary measure, and
`code_levels_by_code` raises the lookup error instead of returning
absent. -/
theorem C2_no_codelist_counterexample :
    SDMXMetadata_init docSEX = .ok mSEX ∧
    "GEO" ∈ mSEX.concept_codes ∧
    dlookup mSEX.concept_code_to_codelist_key "GEO" = none ∧
    "GEO" ≠ mSEX.primary_measure_code ∧
    code_levels_by_code mSEX "GEO" = .error .keyError :=
  ⟨rfl, by decide, rfl, by decide, rfl⟩

/-- Witness for C2's amended theorem at `docSEX` and concept `GEO`. -/
theorem C2_witness_eval :
    code_levels_by_code mSEX "GEO" = .error .keyError ∧
    code_levels_by_code mSEX mSEX.primary_measure_code = .ok none :=
  @C2_code_levels_by_code_behaviour docSEX mSEX "GEO" rfl (by decide) rfl (by decide)

/-- C3 (amended): duplicate concept codes in the key family are NOT
rejected: construction performs no uniqueness check, the codes list records
every concept reference's code in document order with duplicates kept, and
later dict insertions silently overwrite earlier ones. -/
theorem C3_duplicate_codes_accepted {root : Element} {m : Model}
    (h : SDMXMetadata_init root = .ok m) :
    m.concept_codes = (conceptRefEntries root).map Prod.fst :=
  (init_ok_inv h).2.1

/-- Counterexample for C3 as stated: `docDup` carries the concept code `A`
twice in its key family, yet construction succeeds (no error of any kind)
and records the code twice. -/
theorem C3_duplicate_codes_counterexample :
    SDMXMetadata_init docDup = .ok mDup ∧ mDup.concept_codes = ["A", "A"] :=
  ⟨rfl, rfl⟩

/-- Witness for C3's amended theorem at `docDup`. -/
theorem C3_witness_eval :
    mDup.concept_codes = (conceptRefEntries docDup).map Prod.fst :=
  @C3_duplicate_codes_accepted docDup mDup rfl

/-- C6 (amended): during code-level discovery a codelist key whose
`CodeList` is missing, and equally one whose `CodeList` element has no
child elements at all (the falsy case of `if code_list:`), is skipped
silently — no stored enumeration, no error.  (A `CodeList` with children
but zero `Code` children is NOT skipped: it stores an empty enumeration,
see the counterexample.) -/
theorem C6_missing_and_childless_skipped :
    (∀ (root : Element) (k2c : List (String × String)) (key : String) (keys : List String),
      findCodeList root key = none →
      load_code_levels root k2c (key :: keys) = load_code_levels root k2c keys) ∧
    (∀ (root : Element) (k2c : List (String × String)) (key : String) (keys : List String)
      (cl : Element), findCodeList root key = some cl → cl.children = [] →
      load_code_levels root k2c (key :: keys) = load_code_levels root k2c keys) := by
  constructor
  · intro root k2c key keys h
    rw [load_code_levels.eq_2]
    rw [h]
  · intro root k2c key keys cl h hcl
    rw [load_code_levels.eq_2]
    rw [h]
    simp only
    rw [if_pos (by rw [hcl]; rfl)]

/-- Counterexample for C6 as stated: in `docC6`, concept `A`'s `CodeList`
exists with zero `Code` children (only a `Name` child), and construction
DOES store an enumeration for `A` — the empty one — whereas `M`, whose
key matches no `CodeList`, gets none; the two cases are distinguishable. -/
theorem C6_childless_vs_codeless_counterexample :
    SDMXMetadata_init docC6 = .ok mC6 ∧
    findCodeList docC6 "CL_A" = some (Element.mk "CodeList" [("id", "CL_A")] none
      [Element.mk "Name" [] (some "Alpha codes") []]) ∧
    ((Element.mk "CodeList" [("id", "CL_A")] none
      [Element.mk "Name" [] (some "Alpha codes") []]).children.filter
        (fun c => c.tag = "Code")) = [] ∧
    dlookup mC6.code_levels "A" = some [] ∧
    findCodeList docC6 "CL_MISS" = none ∧
    dlookup mC6.code_levels "M" = none :=
  ⟨rfl, rfl, rfl, rfl, rfl, rfl⟩

/-- Witness for C6's amended theorem: a missing `CodeList` and a childless
`CodeList` both leave the pass unchanged. -/
theorem C6_witness_eval :
    load_code_levels (Element.mk "R" [] none []) [] ("K" :: []) =
      load_code_levels (Element.mk "R" [] none []) [] [] ∧
    load_code_levels (Element.mk "R2" [] none
        [Element.mk "CodeList" [("id", "K")] none []]) [] ("K" :: []) =
      load_code_levels (Element.mk "R2" [] none
        [Element.mk "CodeList" [("id", "K")] none []]) [] [] :=
  ⟨C6_missing_and_childless_skipped.1 _ [] "K" [] rfl,
   C6_missing_and_childless_skipped.2 _ [] "K" [] _ rfl rfl⟩

/-- C5: for every discovered concept code `c`, the round trip
`name_by_code (code_by_name (name_by_code c))` returns exactly
`name_by_code c`, even when several concept codes share a display name. -/
theorem C5_name_roundtrip {root : Element} {m : Model} {c : String}
    (h : SDMXMetadata_init root = .ok m) (hc : c ∈ m.concept_codes) :
    ((name_by_code m c).bind (fun n => code_by_name m n)).bind
      (fun c' => name_by_code m c') = name_by_code m c := by
  obtain ⟨hpm, hcodes, hkeys, hc2k, hk2c, hnames, hlevels⟩ := init_ok_inv h
  obtain ⟨hkeys1, hvals, hmirror⟩ := load_names_ok hnames
  rw [hcodes, ← hkeys1] at hc
  obtain ⟨p, hp, hp1⟩ := List.mem_map.mp hc
  have hmem1 : (c, p.2) ∈ m.concept_code_to_name := by
    have hpe : p = (c, p.2) := by rw [← hp1]
    exact hpe ▸ hp
  have hs1 := isSome_dlookup_of_mem hmem1
  obtain ⟨n, hn⟩ := Option.isSome_iff_exists.mp hs1
  have hmem1' : (c, n) ∈ m.concept_code_to_name := dlookup_eq_some_mem hn
  have hmem2 : (n, c) ∈ m.name_to_concept_code := by
    rw [hmirror]
    exact List.mem_map.mpr ⟨(c, n), hmem1', rfl⟩
  have hs2 := isSome_dlookup_of_mem hmem2
  obtain ⟨c', hc'⟩ := Option.isSome_iff_exists.mp hs2
  have hmem3 : (n, c') ∈ m.name_to_concept_code := dlookup_eq_some_mem hc'
  have hmem4 : (c', n) ∈ m.concept_code_to_name := by
    rw [hmirror] at hmem3
    obtain ⟨q, hq, hqe⟩ := List.mem_map.mp hmem3
    have hq2 : q.2 = n := congrArg Prod.fst hqe
    have hq1 : q.1 = c' := congrArg Prod.snd hqe
    have hqq : q = (c', n) := by rw [← hq1, ← hq2]
    exact hqq ▸ hq
  have hs3 := isSome_dlookup_of_mem hmem4
  obtain ⟨n', hn'⟩ := Option.isSome_iff_exists.mp hs3
  have hmem5 : (c', n') ∈ m.concept_code_to_name := dlookup_eq_some_mem hn'
  have ha : conceptName root c' = .ok n := hvals _ hmem4
  have hb : conceptName root c' = .ok n' := hvals _ hmem5
  rw [ha] at hb
  injection hb with hb
  have e1 : name_by_code m c = .ok n := by unfold name_by_code; rw [hn]
  have e2 : code_by_name m n = .ok c' := by unfold code_by_name; rw [hc']
  have e3 : name_by_code m c' = .ok n := by unfold name_by_code; rw [hn', ← hb]
  rw [e1]
  show code_by_name m n >>= (fun c' => name_by_code m c') = Except.ok n
  rw [e2]
  show name_by_code m c' = Except.ok n
  exact e3

/-- Witness for C5 at `docSEX` and concept `SEX`. -/
theorem C5_witness_eval :
    ((name_by_code mSEX "SEX").bind (fun n => code_by_name mSEX n)).bind
      (fun c' => name_by_code mSEX c') = name_by_code mSEX "SEX" :=
  @C5_name_roundtrip docSEX mSEX "SEX" rfl (by decide)

/-- C1 (amended): for a concept `c` that carries codelist key `K`, provided
`K` is the only recorded codelist key that the reverse key→concept index
resolves to `c` (when several concept references share one codelist key,
only the last one is associated and lookups for the others fail), every
(coded value, description) pair recorded for that codelist in the structure
document — coded values unique, value non-empty, `c` not the primary
measure — is returned exactly by `description_by_code_level` with trim
off. -/
theorem C1_description_matches_document {root : Element} {m : Model} {c K : String}
    {cl : Element} {entries : List (String × Option String)} {v d : String}
    (h : SDMXMetadata_init root = .ok m)
    (hc2k : dlookup m.concept_code_to_codelist_key c = some K)
    (hk2c : dlookup m.codelist_key_to_concept_code K = some c)
    (huniq : ∀ k ∈ m.concept_codelist_keys,
      dlookup m.codelist_key_to_concept_code k = some c → k = K)
    (hcl : findCodeList root K = some cl)
    (hent : codeEntries (cl.children.filter (fun x => x.tag = "Code")) = .ok entries)
    (hpair : (v, some d) ∈ entries)
    (hnodup : (entries.map Prod.fst).Nodup)
    (hv : v ≠ "")
    (hpmc : c ≠ m.primary_measure_code) :
    description_by_code_level m c v false = .ok (some d) := by
  obtain ⟨hpm, hcodes, hkeys, hc2kE, hk2cE, hnames, hlevels⟩ := init_ok_inv h
  rw [hk2cE] at hk2c huniq
  rw [hkeys] at huniq
  have hKmem : K ∈ concept_codelist_keys_of root := by
    have hm := dlookup_eq_some_mem hk2c
    unfold codelist_key_to_concept_code_of at hm
    obtain ⟨p, hp, hpe⟩ := List.mem_filterMap.mp hm
    cases hp2 : p.2 with
    | none => rw [hp2] at hpe; exact Option.noConfusion hpe
    | some k' =>
      rw [hp2] at hpe
      have hpe' : some ((k', p.1) : String × String) = some (K, c) := hpe
      injection hpe' with h1
      injection h1 with hk' hp1
      unfold concept_codelist_keys_of
      exact List.mem_filterMap.mpr ⟨p, hp, by rw [hp2, hk']⟩
  have hne : ¬ cl.children.isEmpty := by
    intro habs
    have hnil : cl.children = [] := List.isEmpty_iff.mp habs
    rw [hnil] at hent
    simp only [List.filter_nil] at hent
    have h0 : (Except.ok [] : Except PyError (List (String × Option String))) =
        .ok entries := hent
    injection h0 with h0
    rw [← h0] at hpair
    simp at hpair
  have hlook : dlookup m.code_levels c = some entries :=
    load_code_levels_ok_target hlevels hKmem huniq hk2c hcl hne hent
  have hdv : dlookup entries v = some (some d) := dlookup_eq_some_of_nodup_mem hnodup hpair
  simp [description_by_code_level, hv, is_primary_measure_code, hpmc, hlook, hdv]

/-- Counterexample for C1 as stated: in `docC1` concepts `A` and `B` share
the codelist key `CL`; `A` is discovered, carries the codelist, the document
records the pair `("1", "One")` for it (values unique, value non-empty, not
the primary measure), yet the lookup raises the dict `KeyError` instead of
returning `"One"`, because the reverse key→concept index kept only `B`. -/
theorem C1_shared_codelist_key_counterexample :
    SDMXMetadata_init docC1 = .ok mC1 ∧
    "A" ∈ mC1.concept_codes ∧
    dlookup mC1.concept_code_to_codelist_key "A" = some "CL" ∧
    findCodeList docC1 "CL" = some (Element.mk "CodeList" [("id", "CL")] none
      [Element.mk "Code" [("value", "1")] none
        [Element.mk "Description" [] (some "One") []]]) ∧
    codeEntries ((Element.mk "CodeList" [("id", "CL")] none
      [Element.mk "Code" [("value", "1")] none
        [Element.mk "Description" [] (some "One") []]]).children.filter
          (fun x => x.tag = "Code")) = .ok [("1", some "One")] ∧
    "A" ≠ mC1.primary_measure_code ∧
    description_by_code_level mC1 "A" "1" false = .error .keyError :=
  ⟨rfl, by decide, rfl, rfl, rfl, by decide, rfl⟩

/-- Witness for C1's amended theorem at `docSEX`, concept `SEX`, coded
value `"2"`. -/
theorem C1_witness_eval :
    description_by_code_level mSEX "SEX" "2" false = .ok (some "Male") :=
  @C1_description_matches_document docSEX mSEX "SEX" "CL_SEX"
    (Element.mk "CodeList" [("id", "CL_SEX")] none
      [ Element.mk "Name" [] (some "Sex codes") []
      , Element.mk "Code" [("value", "1")] none
          [Element.mk "Description" [] (some "Total") []]
      , Element.mk "Code" [("value", "2")] none
          [Element.mk "Description" [] (some "Male") []]
      , Element.mk "Code" [("value", "3")] none
          [Element.mk "Description" [] (some "  Female ") []] ])
    [("1", some "Total"), ("2", some "Male"), ("3", some "  Female ")]
    "2" "Male" rfl rfl rfl (by decide) rfl rfl (by decide) (by decide) (by decide) (by decide)

end SDMX
